import Mathlib

/-!
Shallow embedding of the distributed vote-consensus subsystem of the
deshkavote application (src/deshkavote/voting/views.py and models.py).

The database is modelled as an explicit state record holding the rows of
the tables the consensus code touches; each Django ORM write in the
source becomes a pure state-transforming function.  Row identities are
natural numbers standing in for primary keys / UUIDs.
-/

namespace DeshkaVote

/-- One ElectionNode row.  The model class is referenced from views.py
(`node.node_id`, `node.status`, `node.response_time`, election FK); the
class body itself is absent from models.py, so the fields are taken from
their uses in views.py (create_consensus_round, get_election_status). -/
structure ElectionNode where
  id : Nat
  nodeId : String
  electionId : Nat
  status : String
  responseTime : Nat
  lastHeartbeat : Nat
deriving DecidableEq

/-- One Election row (models.py `Election`): only the fields the
consensus subsystem reads. -/
structure Election where
  id : Nat
  status : String
deriving DecidableEq

/-- One Candidate row (models.py `Candidate`): identity and election FK,
as read by cast_vote. -/
structure Candidate where
  id : Nat
  electionId : Nat
deriving DecidableEq

/-- One Vote row.  Voter/candidate/election FKs and the uniqueness pair
come from models.py `Vote`; `status`, `required_confirmations`,
`confirmation_count` and `vote_hash` are the consensus fields views.py
reads and writes (cast_vote, achieve_consensus, get_vote_status).
`confirmation_count` starts at 0: cast_vote does not pass it and the
spec's status scenario starts a vote at count 0. -/
structure Vote where
  id : Nat
  voterId : Nat
  candidateId : Nat
  electionId : Nat
  status : String
  requiredConfirmations : Nat
  confirmationCount : Nat
  voteHash : String
deriving DecidableEq

/-- One VoteConsensusLog row, with the fields create_consensus_round
writes: vote FK, node_id, consensus_round, status, signature. -/
structure VoteConsensusLog where
  voteId : Nat
  nodeId : String
  consensusRound : Nat
  status : String
  signature : String
deriving DecidableEq

/-- The database state: the rows of the tables the consensus subsystem
touches. -/
structure DBState where
  votes : List Vote
  candidates : List Candidate
  elections : List Election
  nodes : List ElectionNode
  logs : List VoteConsensusLog
deriving DecidableEq

/-- `Vote.objects.get(id=vote_id)` — lookup of a vote row by id. -/
def findVote (s : DBState) (vid : Nat) : Option Vote :=
  s.votes.find? (fun v => v.id == vid)

/-- `Candidate.objects.get(id=...)` — lookup of a candidate row by id. -/
def findCandidate (s : DBState) (cid : Nat) : Option Candidate :=
  s.candidates.find? (fun c => c.id == cid)

/-- `candidate.election` — lookup of an election row by id. -/
def findElection (s : DBState) (eid : Nat) : Option Election :=
  s.elections.find? (fun e => e.id == eid)

/-- `ElectionNode.objects.filter(election=..., status='active')`: the
active nodes of an election, in stored (registry) order — the queryset
in create_consensus_round applies no order_by. -/
def activeNodesFor (s : DBState) (eid : Nat) : List ElectionNode :=
  s.nodes.filter (fun n => n.electionId == eid && n.status == "active")

/-- The node selection of create_consensus_round: the active-node
queryset sliced to the first `count` rows
(`...filter(...)[:vote.required_confirmations]`). -/
def selectActiveNodes (s : DBState) (eid : Nat) (count : Nat) : List ElectionNode :=
  (activeNodesFor s eid).take count

/-- The VoteConsensusLog rows created by one call of
create_consensus_round: one `pending` entry per selected node, with
`consensus_round=1` and signature `"sig_" + vote_hash + "_" + node_id`,
exactly as the create(...) call writes them. -/
def roundLogs (s : DBState) (v : Vote) : List VoteConsensusLog :=
  (selectActiveNodes s v.electionId v.requiredConfirmations).map (fun n =>
    { voteId := v.id
      nodeId := n.nodeId
      consensusRound := 1
      status := "pending"
      signature := "sig_" ++ v.voteHash ++ "_" ++ n.nodeId })

/-- DistributedElectionManager.create_consensus_round (views.py 53-70):
creates one pending log entry per selected active node and returns the
node count. -/
def create_consensus_round (s : DBState) (v : Vote) : DBState × Nat :=
  let nodes := selectActiveNodes s v.electionId v.requiredConfirmations
  ({ s with logs := s.logs ++ roundLogs s v }, nodes.length)

/-- `VoteConsensusLog.objects.filter(vote=vote, status='confirmed').count()`
— confirmed log entries of the vote, over all rounds, as the query in
achieve_consensus counts them. -/
def confirmedCount (s : DBState) (vid : Nat) : Nat :=
  (s.logs.filter (fun l => l.voteId == vid && l.status == "confirmed")).length

/-- Update the vote row with the given id (a `vote.save()` after mutating
the fetched object). -/
def setVote (s : DBState) (vid : Nat) (f : Vote → Vote) : DBState :=
  { s with votes := s.votes.map (fun v => if v.id == vid then f v else v) }

/-- The field mutation achieve_consensus performs before saving:
`vote.status = 'finalized'; vote.confirmation_count = confirmed_logs`. -/
def finalizeWith (c : Nat) (w : Vote) : Vote :=
  { w with status := "finalized", confirmationCount := c }

/-- DistributedElectionManager.achieve_consensus (views.py 72-86):
fetches the vote, counts its confirmed log entries; at or above the
required confirmations it saves status `finalized` with the count and
returns True, otherwise it returns False.  `none` models the
Vote.DoesNotExist exception of the `.get`. -/
def achieve_consensus (s : DBState) (vid : Nat) : Option (DBState × Bool) :=
  match findVote s vid with
  | none => none
  | some v =>
    let confirmedLogs := confirmedCount s vid
    if v.requiredConfirmations ≤ confirmedLogs then
      some (setVote s vid (finalizeWith confirmedLogs), true)
    else
      some (s, false)

/-- `VoteConsensusLog.objects.filter(vote=vote).update(status='confirmed')`
in process_vote_consensus: every log entry of the vote (any round, any
prior status) is set to confirmed. -/
def bulkConfirm (s : DBState) (vid : Nat) : DBState :=
  { s with logs := s.logs.map (fun l =>
      if l.voteId == vid then { l with status := "confirmed" } else l) }

/-- The normal return string of process_vote_consensus (returned on both
the achieved and the not-achieved path). -/
def consensusMsg (vid : Nat) : String :=
  "Consensus achieved for vote " ++ toString vid

/-- process_vote_consensus (views.py 142-173): the background task.
Creates the consensus round; when the created node count reaches the
vote's required confirmations it bulk-confirms all of the vote's log
entries and runs achieve_consensus; otherwise it just returns.  The
caught-exception path (vote missing) returns the error string with the
state as is. -/
def process_vote_consensus (s : DBState) (vid : Nat) : DBState × String :=
  match findVote s vid with
  | none => (s, "Error processing vote consensus")
  | some v =>
    let r := create_consensus_round s v
    if v.requiredConfirmations ≤ r.2 then
      let s2 := bulkConfirm r.1 vid
      match achieve_consensus s2 vid with
      | some p => (p.1, consensusMsg vid)
      | none => (s2, "Error processing vote consensus")
    else
      (r.1, consensusMsg vid)

/-- Outcome of a cast_vote request, abstracting the JsonResponse bodies
of views.py 540-614: success with the vote id, the
already-voted rejection, the inactive-election rejection, and the 404
path of get_object_or_404. -/
inductive CastResult where
  | success (voteId : Nat)
  | alreadyVoted
  | electionNotActive
  | notFound
deriving DecidableEq

/-- The Vote row created by cast_vote: status `pending`,
required_confirmations 3 (hardcoded in the create call),
confirmation_count at its initial 0. -/
def mkVote (nid voterPk candId eid : Nat) (h : String) : Vote :=
  { id := nid, voterId := voterPk, candidateId := candId, electionId := eid
    status := "pending", requiredConfirmations := 3, confirmationCount := 0
    voteHash := h }

/-- cast_vote (views.py 540-614), the state-relevant core of the atomic
block: fetch candidate and its election; reject if the election is not
active; reject if a Vote for (voter, election) exists; otherwise create
the pending vote.  `nid` is the fresh primary key, `h` the vote hash the
model layer assigns. -/
def cast_vote (s : DBState) (voterPk candId nid : Nat) (h : String) :
    DBState × CastResult :=
  match findCandidate s candId with
  | none => (s, .notFound)
  | some cand =>
    match findElection s cand.electionId with
    | none => (s, .notFound)
    | some elec =>
      if elec.status ≠ "active" then (s, .electionNotActive)
      else if s.votes.any (fun v => v.voterId == voterPk && v.electionId == elec.id) then
        (s, .alreadyVoted)
      else
        ({ s with votes := s.votes ++ [mkVote nid voterPk candId elec.id h] },
         .success nid)

/-- One state-mutating step of the consensus subsystem: a cast_vote
request, one of the individual database writes of the background task
(round creation, the bulk confirm), or an achieve_consensus evaluation.
process_vote_consensus runs without an enclosing transaction, so each of
its writes commits — and is observable — separately. -/
inductive Step : DBState → DBState → Prop where
  | cast : ∀ s voterPk candId nid h, Step s (cast_vote s voterPk candId nid h).1
  | openRound : ∀ s v, v ∈ s.votes → Step s (create_consensus_round s v).1
  | confirmAll : ∀ s vid, Step s (bulkConfirm s vid)
  | evalConsensus : ∀ s vid p, achieve_consensus s vid = some p → Step s p.1

/-- Reachability by any sequence of consensus-subsystem steps. -/
def Reachable : DBState → DBState → Prop :=
  Relation.ReflTransGen Step

/-- The round numbers carried by the vote's log entries. -/
def roundsOf (s : DBState) (vid : Nat) : List Nat :=
  (s.logs.filter (fun l => l.voteId == vid)).map (fun l => l.consensusRound)

/-- The vote's current round: the largest round number among its log
entries (1 when none exist). -/
def currentRound (s : DBState) (vid : Nat) : Nat :=
  (roundsOf s vid).foldr max 1

/-- Confirmed log entries of the vote within one given round. -/
def confirmedInRound (s : DBState) (vid r : Nat) : Nat :=
  (s.logs.filter (fun l =>
    l.voteId == vid && l.consensusRound == r && l.status == "confirmed")).length

/-- The vote's log entries in its current round. -/
def logsInCurrentRound (s : DBState) (vid : Nat) : List VoteConsensusLog :=
  s.logs.filter (fun l => l.voteId == vid && l.consensusRound == currentRound s vid)

/-- Every log entry of the vote's current round has settled (confirmed
or rejected). -/
def allSettled (s : DBState) (vid : Nat) : Bool :=
  (logsInCurrentRound s vid).all (fun l =>
    l.status == "confirmed" || l.status == "rejected")

/-- The tri-valued outcome of the spec's evaluate contract. -/
inductive ConsensusOutcome where
  | still_pending
  | finalized
  | failed
deriving DecidableEq

/-- Modelled from the spec: the `evaluate(vote) -> ConsensusOutcome`
contract of section 4.3, which is absent from the code
(achieve_consensus returns only a Bool).  Quorum on the current round's
confirmed entries gives `finalized`; an all-settled round below quorum
gives `failed`; otherwise `still_pending`.  Used only to compare the
spec's outcome alphabet with the code's Boolean return. -/
def evaluateSpec (s : DBState) (vid : Nat) : Option ConsensusOutcome :=
  match findVote s vid with
  | none => none
  | some v =>
    if v.requiredConfirmations ≤ confirmedInRound s vid (currentRound s vid) then
      some .finalized
    else if allSettled s vid then some .failed
    else some .still_pending

/-! ### Helper lemmas -/

lemma find?_map_of_pred_eq {α : Type} (g : α → α) (p : α → Bool)
    (hp : ∀ a, p (g a) = p a) :
    ∀ l : List α, (l.map g).find? p = (l.find? p).map g := by
  intro l
  induction l with
  | nil => rfl
  | cons a t ih =>
    cases h : p a with
    | true =>
      rw [List.map_cons, List.find?_cons_of_pos _ ((hp a).trans h),
        List.find?_cons_of_pos _ h]
      rfl
    | false =>
      rw [List.map_cons, List.find?_cons_of_neg _ (by rw [hp a, h]; simp),
        List.find?_cons_of_neg _ (by rw [h]; simp), ih]

lemma findVote_setVote (s : DBState) (vid vid2 : Nat) (f : Vote → Vote)
    (hf : ∀ w, (f w).id = w.id) :
    findVote (setVote s vid2 f) vid =
      (findVote s vid).map (fun w => if w.id == vid2 then f w else w) := by
  unfold findVote setVote
  exact find?_map_of_pred_eq _ _
    (fun w => by by_cases h : w.id == vid2 <;> simp [h, hf]) s.votes

lemma findVote_id (s : DBState) (vid : Nat) (v : Vote)
    (hv : findVote s vid = some v) : v.id = vid := by
  have := @List.find?_some Vote (fun w => w.id == vid) v s.votes hv
  simpa using this

lemma confirmedCount_setVote (s : DBState) (vid : Nat) (f : Vote → Vote)
    (vid' : Nat) : confirmedCount (setVote s vid f) vid' = confirmedCount s vid' :=
  rfl

lemma findVote_setVote_self (s : DBState) (vid : Nat) (v : Vote) (f : Vote → Vote)
    (hv : findVote s vid = some v) (hf : ∀ w, (f w).id = w.id) :
    findVote (setVote s vid f) vid = some (f v) := by
  rw [findVote_setVote s vid vid f hf, hv]
  simp [findVote_id s vid v hv]

lemma findVote_setVote_other (s : DBState) (vid vid2 : Nat) (v : Vote)
    (f : Vote → Vote) (hv : findVote s vid = some v)
    (hf : ∀ w, (f w).id = w.id) (hne : vid ≠ vid2) :
    findVote (setVote s vid2 f) vid = some v := by
  rw [findVote_setVote s vid vid2 f hf, hv]
  simp [findVote_id s vid v hv, hne]

/-- Unfolding equation for achieve_consensus when the vote exists. -/
lemma achieve_consensus_eq_some (s : DBState) (vid : Nat) (v : Vote)
    (hv : findVote s vid = some v) :
    achieve_consensus s vid =
      if v.requiredConfirmations ≤ confirmedCount s vid then
        some (setVote s vid (finalizeWith (confirmedCount s vid)), true)
      else some (s, false) := by
  unfold achieve_consensus
  rw [hv]

/-- Unfolding equation for achieve_consensus when the vote is missing. -/
lemma achieve_consensus_eq_none (s : DBState) (vid : Nat)
    (hv : findVote s vid = none) : achieve_consensus s vid = none := by
  unfold achieve_consensus
  rw [hv]

/-- Finalizing the same vote twice with the same count is the same as
finalizing it once. -/
lemma setVote_finalize_idem (s : DBState) (vid : Nat) (c : Nat) :
    setVote (setVote s vid (finalizeWith c)) vid (finalizeWith c) =
    setVote s vid (finalizeWith c) := by
  simp only [setVote, List.map_map]
  congr 1
  apply List.map_congr_left
  intro w _
  by_cases h : w.id == vid <;> simp [Function.comp, finalizeWith, h]

/-! ### C1: quorum evaluation in achieve_consensus -/

/-- C1: achieve_consensus finalizes exactly at quorum: when the vote's
confirmed consensus-log count is at least required_confirmations it sets
status finalized, persists that count as confirmation_count and returns
True; otherwise it returns False and leaves the state unchanged. -/
theorem achieve_consensus_quorum (s : DBState) (vid : Nat) (v : Vote)
    (hv : findVote s vid = some v) :
    (v.requiredConfirmations ≤ confirmedCount s vid →
      ∃ s1, achieve_consensus s vid = some (s1, true) ∧
        findVote s1 vid = some (finalizeWith (confirmedCount s vid) v)) ∧
    (confirmedCount s vid < v.requiredConfirmations →
      achieve_consensus s vid = some (s, false)) := by
  constructor
  · intro hge
    refine ⟨setVote s vid (finalizeWith (confirmedCount s vid)), ?_, ?_⟩
    · rw [achieve_consensus_eq_some s vid v hv, if_pos hge]
    · exact findVote_setVote_self s vid v (finalizeWith (confirmedCount s vid)) hv
        (fun w => rfl)
  · intro hlt
    rw [achieve_consensus_eq_some s vid v hv, if_neg (Nat.not_le.mpr hlt)]

def wVoteA : Vote :=
  { id := 1, voterId := 10, candidateId := 1, electionId := 1
    status := "pending", requiredConfirmations := 1, confirmationCount := 0
    voteHash := "h" }

def wLogA : VoteConsensusLog :=
  { voteId := 1, nodeId := "n1", consensusRound := 1, status := "confirmed"
    signature := "sg" }

def wStA : DBState :=
  { votes := [wVoteA], candidates := [], elections := [], nodes := []
    logs := [wLogA] }

/-- C1 witness: on a concrete state with one confirmed entry and quorum
1, achieve_consensus finalizes the vote and persists the count. -/
theorem achieve_consensus_quorum_w :
    ∃ s1, achieve_consensus wStA 1 = some (s1, true) ∧
      findVote s1 1 = some (finalizeWith (confirmedCount wStA 1) wVoteA) :=
  (achieve_consensus_quorum wStA 1 wVoteA (by decide)).1 (by decide)

/-! ### C9: idempotence on finalized votes -/

/-- C9: consensus evaluation is idempotent on finalized votes: when a
call of achieve_consensus finalizes a vote (returns True with state s1),
calling it again on s1 returns True again and leaves s1 unchanged. -/
theorem achieve_consensus_idem (s : DBState) (vid : Nat) (s1 : DBState)
    (h : achieve_consensus s vid = some (s1, true)) :
    achieve_consensus s1 vid = some (s1, true) := by
  cases hv : findVote s vid with
  | none =>
    rw [achieve_consensus_eq_none s vid hv] at h
    exact Option.noConfusion h
  | some v =>
    rw [achieve_consensus_eq_some s vid v hv] at h
    by_cases hge : v.requiredConfirmations ≤ confirmedCount s vid
    · rw [if_pos hge] at h
      have hs1 : s1 = setVote s vid (finalizeWith (confirmedCount s vid)) := by
        have := (Option.some.injEq _ _).mp h
        exact (congrArg Prod.fst this).symm
      subst hs1
      have hfind : findVote (setVote s vid (finalizeWith (confirmedCount s vid))) vid =
          some (finalizeWith (confirmedCount s vid) v) :=
        findVote_setVote_self s vid v (finalizeWith (confirmedCount s vid)) hv
          (fun w => rfl)
      rw [achieve_consensus_eq_some _ vid _ hfind]
      have hreq : (finalizeWith (confirmedCount s vid) v).requiredConfirmations =
          v.requiredConfirmations := rfl
      have hcc : confirmedCount (setVote s vid (finalizeWith (confirmedCount s vid))) vid =
          confirmedCount s vid := rfl
      rw [hreq, hcc, if_pos hge, setVote_finalize_idem]
    · rw [if_neg hge] at h
      have := congrArg Prod.snd ((Option.some.injEq _ _).mp h)
      exact Bool.noConfusion this

def wVoteB : Vote :=
  { id := 2, voterId := 11, candidateId := 1, electionId := 1
    status := "pending", requiredConfirmations := 1, confirmationCount := 0
    voteHash := "hb" }

def wStB : DBState :=
  { votes := [wVoteB], candidates := [], elections := [], nodes := []
    logs := [{ voteId := 2, nodeId := "n1", consensusRound := 1
               status := "confirmed", signature := "sg" }] }

def wStB1 : DBState :=
  setVote wStB 2 (finalizeWith (confirmedCount wStB 2))

/-- C9 witness: a second evaluation of a concrete just-finalized vote
returns finalized again and changes nothing. -/
theorem achieve_consensus_idem_w :
    achieve_consensus wStB1 2 = some (wStB1, true) :=
  achieve_consensus_idem wStB 2 wStB1 (by decide)

/-! ### C5: settled round below quorum -/

/-- C5 (amended): for a vote whose current round is fully settled with
the confirmed count strictly below required_confirmations,
achieve_consensus returns the non-finalized outcome False with the state
unchanged — the same Boolean it returns while entries are still pending;
the code has no distinct failed outcome. -/
theorem achieve_consensus_settled_below_quorum (s : DBState) (vid : Nat) (v : Vote)
    (hv : findVote s vid = some v) (_hset : allSettled s vid = true)
    (hlt : confirmedCount s vid < v.requiredConfirmations) :
    achieve_consensus s vid = some (s, false) := by
  rw [achieve_consensus_eq_some s vid v hv, if_neg (Nat.not_le.mpr hlt)]

def cVoteF : Vote :=
  { id := 3, voterId := 12, candidateId := 1, electionId := 1
    status := "pending", requiredConfirmations := 3, confirmationCount := 0
    voteHash := "hf" }

/-- A state whose one vote requires 3 confirmations and whose round-1
entries are all settled: 2 rejected, 1 confirmed. -/
def cStF : DBState :=
  { votes := [cVoteF], candidates := [], elections := [], nodes := []
    logs := [{ voteId := 3, nodeId := "n1", consensusRound := 1
               status := "rejected", signature := "s1" },
             { voteId := 3, nodeId := "n2", consensusRound := 1
               status := "rejected", signature := "s2" },
             { voteId := 3, nodeId := "n3", consensusRound := 1
               status := "confirmed", signature := "s3" }] }

/-- The same vote with all three round-1 entries still pending. -/
def cStP : DBState :=
  { votes := [cVoteF], candidates := [], elections := [], nodes := []
    logs := [{ voteId := 3, nodeId := "n1", consensusRound := 1
               status := "pending", signature := "s1" },
             { voteId := 3, nodeId := "n2", consensusRound := 1
               status := "pending", signature := "s2" },
             { voteId := 3, nodeId := "n3", consensusRound := 1
               status := "pending", signature := "s3" }] }

/-- C5 counterexample: on the settled 2-rejected/1-confirmed round the
code returns the very same outcome (False, state unchanged) as on a
fully pending round, while the spec's evaluate assigns `failed` to the
first and `still_pending` to the second — the code does not return a
distinct failed outcome. -/
theorem achieve_consensus_no_failed_outcome :
    achieve_consensus cStF 3 = some (cStF, false) ∧
    achieve_consensus cStP 3 = some (cStP, false) ∧
    evaluateSpec cStF 3 = some ConsensusOutcome.failed ∧
    evaluateSpec cStP 3 = some ConsensusOutcome.still_pending ∧
    ConsensusOutcome.failed ≠ ConsensusOutcome.still_pending := by
  refine ⟨by decide, by decide, by decide, by decide, by decide⟩

/-- C5 witness: the amended theorem applied at the concrete settled
2-rejected/1-confirmed state. -/
theorem achieve_consensus_settled_below_quorum_w :
    achieve_consensus cStF 3 = some (cStF, false) :=
  achieve_consensus_settled_below_quorum cStF 3 cVoteF (by decide) (by decide)
    (by decide)

/-! ### C6: round opening with zero active nodes -/

/-- C6 (amended): with zero active nodes for the vote's election,
create_consensus_round does not fail: it creates no log entries and
returns node count 0, leaving the state — and hence the vote's pending
status — unchanged. -/
theorem create_consensus_round_no_active (s : DBState) (v : Vote)
    (h : activeNodesFor s v.electionId = []) :
    create_consensus_round s v = (s, 0) := by
  unfold create_consensus_round roundLogs selectActiveNodes
  rw [h]
  simp

def cVoteN : Vote :=
  { id := 4, voterId := 13, candidateId := 1, electionId := 1
    status := "pending", requiredConfirmations := 3, confirmationCount := 0
    voteHash := "hn" }

/-- A state whose election has no active node (its only node is
inactive). -/
def cStN : DBState :=
  { votes := [cVoteN], candidates := [], elections := [{ id := 1, status := "active" }]
    nodes := [{ id := 1, nodeId := "n1", electionId := 1, status := "inactive"
                responseTime := 5, lastHeartbeat := 0 }]
    logs := [] }

/-- C6 counterexample: with zero active nodes, round opening raises no
InsufficientNodesError — it returns normally with node count 0,
creating nothing; the vote does stay pending. -/
theorem create_consensus_round_no_active_counterexample :
    create_consensus_round cStN cVoteN = (cStN, 0) ∧
    (create_consensus_round cStN cVoteN).1.logs = [] ∧
    findVote cStN 4 = some cVoteN ∧ cVoteN.status = "pending" := by
  refine ⟨by decide, by decide, by decide, by decide⟩

/-- C6 witness: the amended theorem applied at the concrete
no-active-node state. -/
theorem create_consensus_round_no_active_w :
    create_consensus_round cStN cVoteN = (cStN, 0) :=
  create_consensus_round_no_active cStN cVoteN (by decide)

/-! ### C7: active node selection -/

/-- C7 (amended): node selection returns up to `count` nodes, each
active and belonging to the election; when at most `count` active nodes
exist it returns exactly all of them (never an error); the returned
sequence preserves the node registry's stored order (it is a sublist of
it) — no ordering by response time, heartbeat or id is applied. -/
theorem selectActiveNodes_spec (s : DBState) (eid count : Nat) :
    (∀ n ∈ selectActiveNodes s eid count, n.status = "active" ∧ n.electionId = eid) ∧
    (selectActiveNodes s eid count).length ≤ count ∧
    ((activeNodesFor s eid).length ≤ count →
      selectActiveNodes s eid count = activeNodesFor s eid) ∧
    (selectActiveNodes s eid count).Sublist s.nodes := by
  refine ⟨?_, ?_, ?_, ?_⟩
  · intro n hn
    have hmem : n ∈ activeNodesFor s eid := List.mem_of_mem_take hn
    have hprop := (List.mem_filter.mp hmem).2
    simp only [Bool.and_eq_true, beq_iff_eq] at hprop
    exact ⟨hprop.2, hprop.1⟩
  · unfold selectActiveNodes
    rw [List.length_take]
    exact min_le_left _ _
  · intro hle
    unfold selectActiveNodes
    exact List.take_of_length_le hle
  · exact (List.take_sublist _ _).trans (List.filter_sublist _)

def nodeA : ElectionNode :=
  { id := 1, nodeId := "na", electionId := 1, status := "active"
    responseTime := 50, lastHeartbeat := 10 }

def nodeB : ElectionNode :=
  { id := 2, nodeId := "nb", electionId := 1, status := "active"
    responseTime := 10, lastHeartbeat := 20 }

/-- Registry holding two active nodes stored slowest-first. -/
def cStS : DBState :=
  { votes := [], candidates := [], elections := [{ id := 1, status := "active" }]
    nodes := [nodeA, nodeB], logs := [] }

/-- C7 counterexample: with 2 active nodes and count 3 the selection
returns exactly those 2, but in stored order — the slower node (response
time 50) first — so the result is not ordered by response time
ascending as claimed. -/
theorem selectActiveNodes_not_sorted :
    selectActiveNodes cStS 1 3 = [nodeA, nodeB] ∧
    nodeB.responseTime < nodeA.responseTime ∧
    ¬ List.Chain' (fun a b : ElectionNode => a.responseTime ≤ b.responseTime)
      (selectActiveNodes cStS 1 3) := by
  refine ⟨by decide, by decide, ?_⟩
  intro hchain
  have : nodeA.responseTime ≤ nodeB.responseTime := by
    have h := hchain
    rw [show selectActiveNodes cStS 1 3 = [nodeA, nodeB] from by decide] at h
    exact (List.chain'_cons.mp h).1
  exact absurd this (by decide)

/-- C7 witness: the amended theorem applied at the concrete
two-active-node registry with count 3: it returns exactly the available
active nodes. -/
theorem selectActiveNodes_spec_w :
    selectActiveNodes cStS 1 3 = activeNodesFor cStS 1 :=
  (selectActiveNodes_spec cStS 1 3).2.2.1 (by decide)

/-! ### C8: round numbers -/

/-- C8 (amended): every log entry created by a call of
create_consensus_round carries consensus_round = 1; the round number is
hardcoded and no per-vote round counter is incremented, so successive
calls produce entries with the same round number 1. -/
theorem create_consensus_round_always_one (s : DBState) (v : Vote)
    (l : VoteConsensusLog) (hl : l ∈ ((create_consensus_round s v).1).logs) :
    l ∈ s.logs ∨ l.consensusRound = 1 := by
  unfold create_consensus_round at hl
  rw [List.mem_append] at hl
  rcases hl with h | h
  · exact Or.inl h
  · right
    unfold roundLogs at h
    obtain ⟨n, _, rfl⟩ := List.mem_map.mp h
    rfl

def cVote8 : Vote :=
  { id := 5, voterId := 14, candidateId := 1, electionId := 2
    status := "pending", requiredConfirmations := 3, confirmationCount := 0
    voteHash := "h8" }

def cSt8 : DBState :=
  { votes := [cVote8], candidates := [], elections := [{ id := 2, status := "active" }]
    nodes := [{ id := 3, nodeId := "m1", electionId := 2, status := "active"
                responseTime := 1, lastHeartbeat := 0 }]
    logs := [] }

/-- The state after opening one consensus round for the vote. -/
def cSt8a : DBState := (create_consensus_round cSt8 cVote8).1

/-- The state after opening a second consensus round for the same vote. -/
def cSt8b : DBState := (create_consensus_round cSt8a cVote8).1

/-- C8 counterexample: after two successive round openings for the same
vote, its log entries carry round numbers [1, 1] — the second call did
not increment any round counter, so the round numbers are not strictly
increasing. -/
theorem create_consensus_round_numbers_not_increasing :
    ((cSt8b.logs.filter (fun l => l.voteId == 5)).map (fun l => l.consensusRound))
      = [1, 1] ∧
    ¬ List.Chain' (fun a b : Nat => a < b)
      ((cSt8b.logs.filter (fun l => l.voteId == 5)).map (fun l => l.consensusRound)) := by
  refine ⟨by decide, ?_⟩
  intro hchain
  rw [show ((cSt8b.logs.filter (fun l => l.voteId == 5)).map
    (fun l => l.consensusRound)) = [1, 1] from by decide] at hchain
  exact absurd (List.chain'_cons.mp hchain).1 (by decide)

/-- C8 witness: the amended theorem applied at the concrete one-node
state: the created entry carries round number 1. -/
theorem create_consensus_round_always_one_w :
    ({ voteId := 5, nodeId := "m1", consensusRound := 1, status := "pending"
       signature := "sig_h8_m1" } : VoteConsensusLog) ∈ cSt8.logs ∨
    ({ voteId := 5, nodeId := "m1", consensusRound := 1, status := "pending"
       signature := "sig_h8_m1" } : VoteConsensusLog).consensusRound = 1 :=
  create_consensus_round_always_one cSt8 cVote8 _ (by decide)

/-! ### C2: no double voting -/

/-- Unfolding equation for cast_vote once the candidate and its election
resolve. -/
lemma cast_vote_eq (s : DBState) (voterPk candId nid : Nat) (h : String)
    (c : Candidate) (e : Election) (hc : findCandidate s candId = some c)
    (he : findElection s c.electionId = some e) :
    cast_vote s voterPk candId nid h =
      if e.status ≠ "active" then (s, .electionNotActive)
      else if s.votes.any (fun v => v.voterId == voterPk && v.electionId == e.id) then
        (s, .alreadyVoted)
      else ({ s with votes := s.votes ++ [mkVote nid voterPk candId e.id h] },
        .success nid) := by
  unfold cast_vote
  simp only [hc, he]

/-- C2: a first cast_vote for a voter with no existing vote in the
(active) election succeeds and persists the pending vote; a second
cast_vote for the same voter and election (through any candidate of that
election) is rejected as a duplicate, mutating no state, and exactly one
Vote row for the pair remains. -/
theorem cast_vote_unique (s : DBState) (voterPk candId candId2 nid nid2 : Nat)
    (h h2 : String) (c c2 : Candidate) (e : Election)
    (hc : findCandidate s candId = some c)
    (he : findElection s c.electionId = some e)
    (hact : e.status = "active")
    (hc2 : findCandidate s candId2 = some c2)
    (hsame : c2.electionId = c.electionId)
    (hnone : s.votes.any (fun v => v.voterId == voterPk && v.electionId == e.id)
      = false) :
    cast_vote s voterPk candId nid h =
      ({ s with votes := s.votes ++ [mkVote nid voterPk candId e.id h] },
       .success nid) ∧
    cast_vote { s with votes := s.votes ++ [mkVote nid voterPk candId e.id h] }
        voterPk candId2 nid2 h2 =
      ({ s with votes := s.votes ++ [mkVote nid voterPk candId e.id h] },
       .alreadyVoted) ∧
    (s.votes ++ [mkVote nid voterPk candId e.id h]).countP
        (fun v => v.voterId == voterPk && v.electionId == e.id) = 1 := by
  refine ⟨?_, ?_, ?_⟩
  · rw [cast_vote_eq s voterPk candId nid h c e hc he,
      if_neg (by simp [hact]), if_neg (by simp [hnone])]
  · have he2 : findElection
        { s with votes := s.votes ++ [mkVote nid voterPk candId e.id h] }
        c2.electionId = some e := by
      rw [hsame]; exact he
    have hc2a : findCandidate
        { s with votes := s.votes ++ [mkVote nid voterPk candId e.id h] }
        candId2 = some c2 := hc2
    rw [cast_vote_eq _ voterPk candId2 nid2 h2 c2 e hc2a he2,
      if_neg (by simp [hact])]
    have hany : (s.votes ++ [mkVote nid voterPk candId e.id h]).any
        (fun v => v.voterId == voterPk && v.electionId == e.id) = true := by
      rw [List.any_append, hnone]
      simp [mkVote]
    rw [if_pos hany]
  · rw [List.countP_append]
    have h0 : s.votes.countP
        (fun v => v.voterId == voterPk && v.electionId == e.id) = 0 :=
      List.countP_eq_zero.mpr (List.any_eq_false.mp hnone)
    rw [h0]
    simp [mkVote, List.countP_cons]

def cTwoCand : Candidate := { id := 1, electionId := 1 }

def cTwoElec : Election := { id := 1, status := "active" }

/-- A fresh state with one active election, one candidate and no votes. -/
def cTwoSt : DBState :=
  { votes := [], candidates := [cTwoCand], elections := [cTwoElec]
    nodes := [], logs := [] }

/-- C2 witness: on the concrete fresh state, the second cast_vote for
the same voter and election is rejected as a duplicate with the state
unchanged. -/
theorem cast_vote_unique_w :
    cast_vote { cTwoSt with votes := cTwoSt.votes ++ [mkVote 1 10 1 1 "v1"] }
        10 1 2 "v2" =
      ({ cTwoSt with votes := cTwoSt.votes ++ [mkVote 1 10 1 1 "v1"] },
       CastResult.alreadyVoted) :=
  (cast_vote_unique cTwoSt 10 1 1 1 2 "v1" "v2" cTwoCand cTwoCand cTwoElec
    (by decide) (by decide) (by decide) (by decide) (by decide) (by decide)).2.1

/-! ### C10: background task with insufficient nodes -/

/-- Unfolding equation for process_vote_consensus when the vote
exists. -/
lemma process_vote_consensus_eq_some (s : DBState) (vid : Nat) (v : Vote)
    (hv : findVote s vid = some v) :
    process_vote_consensus s vid =
      if v.requiredConfirmations ≤ (create_consensus_round s v).2 then
        match achieve_consensus (bulkConfirm (create_consensus_round s v).1 vid) vid with
        | some p => (p.1, consensusMsg vid)
        | none => (bulkConfirm (create_consensus_round s v).1 vid,
            "Error processing vote consensus")
      else ((create_consensus_round s v).1, consensusMsg vid) := by
  unfold process_vote_consensus
  rw [hv]

/-- C10: when the vote's election has fewer active nodes than its
required confirmations, the background task only appends the pending log
entries: every created entry has status pending, the vote row — its
status and confirmation_count — is untouched, no error is raised (the
normal message is returned), and nothing further is scheduled. -/
theorem process_vote_consensus_insufficient (s : DBState) (vid : Nat) (v : Vote)
    (hv : findVote s vid = some v)
    (hlt : (activeNodesFor s v.electionId).length < v.requiredConfirmations) :
    process_vote_consensus s vid =
      ({ s with logs := s.logs ++ roundLogs s v }, consensusMsg vid) ∧
    (∀ l ∈ roundLogs s v, l.status = "pending") ∧
    findVote ({ s with logs := s.logs ++ roundLogs s v } : DBState) vid = some v := by
  have hlen : (create_consensus_round s v).2 < v.requiredConfirmations := by
    have hle : (selectActiveNodes s v.electionId v.requiredConfirmations).length ≤
        (activeNodesFor s v.electionId).length := by
      unfold selectActiveNodes
      rw [List.length_take]
      exact min_le_right _ _
    exact Nat.lt_of_le_of_lt hle hlt
  refine ⟨?_, ?_, hv⟩
  · rw [process_vote_consensus_eq_some s vid v hv, if_neg (Nat.not_le.mpr hlen)]
    rfl
  · intro l hl
    unfold roundLogs at hl
    obtain ⟨n, _, rfl⟩ := List.mem_map.mp hl
    rfl

def cVoteT : Vote :=
  { id := 6, voterId := 16, candidateId := 1, electionId := 4
    status := "pending", requiredConfirmations := 3, confirmationCount := 0
    voteHash := "ht" }

/-- An election with a single active node while the vote requires 3
confirmations. -/
def cStT : DBState :=
  { votes := [cVoteT], candidates := [], elections := [{ id := 4, status := "active" }]
    nodes := [{ id := 4, nodeId := "t1", electionId := 4, status := "active"
                responseTime := 2, lastHeartbeat := 0 }]
    logs := [] }

/-- C10 witness: on the concrete one-active-node state the background
task only appends pending entries and returns the normal message. -/
theorem process_vote_consensus_insufficient_w :
    process_vote_consensus cStT 6 =
      ({ cStT with logs := cStT.logs ++ roundLogs cStT cVoteT }, consensusMsg 6) :=
  (process_vote_consensus_insufficient cStT 6 cVoteT (by decide) (by decide)).1

/-! ### C4: the status state machine -/

/-- A cast_vote call either leaves the state unchanged (any rejection
path) or appends the single new pending vote. -/
lemma cast_vote_state (s : DBState) (voterPk candId nid : Nat) (h : String) :
    (cast_vote s voterPk candId nid h).1 = s ∨
    ∃ e : Election, (cast_vote s voterPk candId nid h).1 =
      { s with votes := s.votes ++ [mkVote nid voterPk candId e.id h] } := by
  unfold cast_vote
  cases hc : findCandidate s candId with
  | none => exact Or.inl rfl
  | some c =>
    simp only
    cases he : findElection s c.electionId with
    | none => exact Or.inl rfl
    | some e =>
      simp only
      by_cases hs : e.status ≠ "active"
      · rw [if_pos hs]
        exact Or.inl rfl
      · rw [if_neg hs]
        by_cases ha : s.votes.any
            (fun v => v.voterId == voterPk && v.electionId == e.id) = true
        · rw [if_pos ha]
          exact Or.inl rfl
        · rw [if_neg (by rw [Bool.not_eq_true] at ha; rw [ha]; simp)]
          exact Or.inr ⟨e, rfl⟩

lemma findVote_append_vote (s : DBState) (nv : Vote) (vid : Nat) (v : Vote)
    (hv : findVote s vid = some v) :
    findVote { s with votes := s.votes ++ [nv] } vid = some v := by
  unfold findVote at hv ⊢
  show (s.votes ++ [nv]).find? (fun w => w.id == vid) = some v
  rw [List.find?_append, hv]
  rfl

/-- What one step does to a given vote row: it is untouched, or it was
finalized by an evaluation that had reached quorum. -/
lemma step_findVote (s s' : DBState) (hstep : Step s s') (vid : Nat) (v : Vote)
    (hv : findVote s vid = some v) :
    findVote s' vid = some v ∨
    (findVote s' vid = some (finalizeWith (confirmedCount s vid) v) ∧
      v.requiredConfirmations ≤ confirmedCount s vid) := by
  cases hstep with
  | cast voterPk candId nid h =>
    rcases cast_vote_state s voterPk candId nid h with heq | ⟨e, heq⟩
    · rw [heq]; exact Or.inl hv
    · rw [heq]; exact Or.inl (findVote_append_vote s _ vid v hv)
  | openRound w hw => exact Or.inl hv
  | confirmAll vid2 => exact Or.inl hv
  | evalConsensus vid2 p hp =>
    cases hv2 : findVote s vid2 with
    | none =>
      rw [achieve_consensus_eq_none s vid2 hv2] at hp
      exact Option.noConfusion hp
    | some w =>
      rw [achieve_consensus_eq_some s vid2 w hv2] at hp
      by_cases hge : w.requiredConfirmations ≤ confirmedCount s vid2
      · rw [if_pos hge] at hp
        have hps : p.1 = setVote s vid2 (finalizeWith (confirmedCount s vid2)) :=
          congrArg Prod.fst ((Option.some.injEq _ _).mp hp).symm
        rw [hps]
        by_cases hid : vid = vid2
        · subst hid
          have hwv : w = v := (Option.some.injEq _ _).mp (hv2.symm.trans hv)
          subst hwv
          exact Or.inr ⟨findVote_setVote_self s vid w
            (finalizeWith (confirmedCount s vid)) hv (fun x => rfl), hge⟩
        · exact Or.inl (findVote_setVote_other s vid vid2 v
            (finalizeWith (confirmedCount s vid2)) hv (fun x => rfl) hid)
      · rw [if_neg hge] at hp
        have hps : p.1 = s :=
          congrArg Prod.fst ((Option.some.injEq _ _).mp hp).symm
        rw [hps]
        exact Or.inl hv

/-- Every vote row of the state is pending or finalized. -/
def StatusOK (s : DBState) : Prop :=
  ∀ w ∈ s.votes, w.status = "pending" ∨ w.status = "finalized"

instance (s : DBState) : Decidable (StatusOK s) := by
  unfold StatusOK
  infer_instance

lemma statusOK_step (s s' : DBState) (h : StatusOK s) (hstep : Step s s') :
    StatusOK s' := by
  cases hstep with
  | cast voterPk candId nid hh =>
    rcases cast_vote_state s voterPk candId nid hh with heq | ⟨e, heq⟩
    · rw [heq]; exact h
    · rw [heq]
      intro w hw
      rcases List.mem_append.mp hw with hmem | hmem
      · exact h w hmem
      · rcases List.mem_singleton.mp hmem with rfl
        exact Or.inl rfl
  | openRound w hw => exact h
  | confirmAll vid => exact h
  | evalConsensus vid p hp =>
    cases hv2 : findVote s vid with
    | none =>
      rw [achieve_consensus_eq_none s vid hv2] at hp
      exact Option.noConfusion hp
    | some w =>
      rw [achieve_consensus_eq_some s vid w hv2] at hp
      by_cases hge : w.requiredConfirmations ≤ confirmedCount s vid
      · rw [if_pos hge] at hp
        have hps : p.1 = setVote s vid (finalizeWith (confirmedCount s vid)) :=
          congrArg Prod.fst ((Option.some.injEq _ _).mp hp).symm
        rw [hps]
        intro x hx
        obtain ⟨y, hy, rfl⟩ := List.mem_map.mp hx
        by_cases hyid : (y.id == vid) = true
        · rw [if_pos hyid]
          exact Or.inr rfl
        · rw [if_neg hyid]
          exact h y hy
      · rw [if_neg hge] at hp
        have hps : p.1 = s :=
          congrArg Prod.fst ((Option.some.injEq _ _).mp hp).symm
        rw [hps]
        exact h

lemma reachable_statusOK (s0 s : DBState) (h0 : StatusOK s0)
    (hreach : Reachable s0 s) : StatusOK s := by
  induction hreach with
  | refl => exact h0
  | tail _ hbc ih => exact statusOK_step _ _ ih hbc

/-- C4: along any sequence of consensus-subsystem operations started
from a state whose votes are all pending or finalized, each step leaves
every vote's status unchanged or moves it from pending to finalized: in
particular no vote ever leaves finalized (or failed, which is never
entered), and no other transition occurs. -/
theorem vote_status_machine (s0 s s' : DBState)
    (h0 : StatusOK s0) (hreach : Reachable s0 s) (hstep : Step s s')
    (vid : Nat) (v v' : Vote)
    (hv : findVote s vid = some v) (hv' : findVote s' vid = some v') :
    v'.status = v.status ∨ (v.status = "pending" ∧ v'.status = "finalized") := by
  rcases step_findVote s s' hstep vid v hv with heq | ⟨heq, hge⟩
  · rw [hv'] at heq
    rw [(Option.some.injEq _ _).mp heq]
    exact Or.inl rfl
  · rw [hv'] at heq
    have hv'eq : v' = finalizeWith (confirmedCount s vid) v :=
      (Option.some.injEq _ _).mp heq
    have hsOK : StatusOK s := reachable_statusOK s0 s h0 hreach
    have hvmem : v ∈ s.votes :=
      @List.mem_of_find?_eq_some Vote (fun w => w.id == vid) v s.votes hv
    rcases hsOK v hvmem with hp | hf
    · exact Or.inr ⟨hp, by rw [hv'eq]; rfl⟩
    · left
      rw [hv'eq, hf]
      rfl

def c4V : Vote :=
  { id := 7, voterId := 15, candidateId := 1, electionId := 1
    status := "pending", requiredConfirmations := 1, confirmationCount := 0
    voteHash := "h7" }

def c4St : DBState :=
  { votes := [c4V], candidates := [], elections := [], nodes := []
    logs := [{ voteId := 7, nodeId := "n1", consensusRound := 1
               status := "confirmed", signature := "s7" }] }

def c4p : DBState × Bool :=
  (setVote c4St 7 (finalizeWith (confirmedCount c4St 7)), true)

/-- C4 witness: a concrete evaluation step moves the concrete pending
vote only along the permitted pending-to-finalized edge. -/
theorem vote_status_machine_w :
    (finalizeWith (confirmedCount c4St 7) c4V).status = c4V.status ∨
    (c4V.status = "pending" ∧
      (finalizeWith (confirmedCount c4St 7) c4V).status = "finalized") :=
  vote_status_machine c4St c4St c4p.1 (by decide) Relation.ReflTransGen.refl
    (Step.evalConsensus c4St 7 c4p (by decide)) 7 c4V
    (finalizeWith (confirmedCount c4St 7) c4V) (by decide) (by decide)

/-! ### C3: the confirmation-count invariant -/

/-- C3 (amended): the persisted confirmation_count agrees with the
confirmed-entry count exactly when achieve_consensus finalizes the vote:
a finalizing evaluation stores the count of all of the vote's confirmed
entries (every entry the code ever creates carries round number 1) and
requires that count to have reached required_confirmations; at other
reachable states the persisted count can be stale. -/
theorem confirmation_count_on_finalize (s : DBState) (vid : Nat) (v : Vote)
    (s1 : DBState) (hv : findVote s vid = some v)
    (h : achieve_consensus s vid = some (s1, true)) :
    findVote s1 vid = some (finalizeWith (confirmedCount s vid) v) ∧
    v.requiredConfirmations ≤ confirmedCount s vid := by
  rw [achieve_consensus_eq_some s vid v hv] at h
  by_cases hge : v.requiredConfirmations ≤ confirmedCount s vid
  · rw [if_pos hge] at h
    have hs1 : s1 = setVote s vid (finalizeWith (confirmedCount s vid)) :=
      (congrArg Prod.fst ((Option.some.injEq _ _).mp h)).symm
    subst hs1
    exact ⟨findVote_setVote_self s vid v (finalizeWith (confirmedCount s vid)) hv
      (fun x => rfl), hge⟩
  · rw [if_neg hge] at h
    exact Bool.noConfusion (congrArg Prod.snd ((Option.some.injEq _ _).mp h))

/-- C3 witness: the amended theorem applied at the concrete quorum-1
state. -/
theorem confirmation_count_on_finalize_w :
    findVote (setVote wStA 1 (finalizeWith (confirmedCount wStA 1))) 1 =
      some (finalizeWith (confirmedCount wStA 1) wVoteA) ∧
    wVoteA.requiredConfirmations ≤ confirmedCount wStA 1 :=
  confirmation_count_on_finalize wStA 1 wVoteA
    (setVote wStA 1 (finalizeWith (confirmedCount wStA 1))) (by decide) (by decide)

def c3St0 : DBState :=
  { votes := [], candidates := [{ id := 2, electionId := 3 }]
    elections := [{ id := 3, status := "active" }]
    nodes := [{ id := 5, nodeId := "p1", electionId := 3, status := "active"
                responseTime := 1, lastHeartbeat := 0 },
              { id := 6, nodeId := "p2", electionId := 3, status := "active"
                responseTime := 2, lastHeartbeat := 0 },
              { id := 7, nodeId := "p3", electionId := 3, status := "active"
                responseTime := 3, lastHeartbeat := 0 }]
    logs := [] }

def c3St1 : DBState := (cast_vote c3St0 20 2 9 "h9").1

def c3St2 : DBState := (create_consensus_round c3St1 (mkVote 9 20 2 3 "h9")).1

def c3St3 : DBState := bulkConfirm c3St2 9

/-- C3 counterexample: the state reached by casting a vote, opening its
round and performing the task's bulk confirm — the instant before
achieve_consensus runs, exactly as the untransacted background task
commits it — has 3 confirmed entries in the vote's current round while
the persisted confirmation_count is still 0, violating the claimed
always-equal invariant. -/
theorem confirmation_count_stale_state :
    Reachable c3St0 c3St3 ∧
    findVote c3St3 9 = some (mkVote 9 20 2 3 "h9") ∧
    (mkVote 9 20 2 3 "h9").confirmationCount = 0 ∧
    confirmedInRound c3St3 9 (currentRound c3St3 9) = 3 ∧
    (mkVote 9 20 2 3 "h9").confirmationCount ≠
      confirmedInRound c3St3 9 (currentRound c3St3 9) := by
  refine ⟨?_, by decide, by decide, by decide, by decide⟩
  exact Relation.ReflTransGen.tail (Relation.ReflTransGen.tail
    (Relation.ReflTransGen.tail Relation.ReflTransGen.refl
      (Step.cast c3St0 20 2 9 "h9"))
    (Step.openRound c3St1 (mkVote 9 20 2 3 "h9") (by decide)))
    (Step.confirmAll c3St2 9)

end DeshkaVote
